import Mathlib

set_option maxRecDepth 100000

/-!
Verification of the certification-quiz CLI application against its
specification.  The development shallowly embeds the question parser
(`QuizGenerator._parse_questions` in `src/quiz_engine/generator.py`), the
quiz-session scoring and persistence (`CertQuizApp.run_quiz` in `main.py`),
the topic-statistics aggregation (`DynamoDBClient.get_topic_statistics` in
`src/data_store/dynamo_client.py`) and the user-identity file logic
(`CertQuizApp._get_or_create_user_id` in `main.py`).

Strings are modelled as `List Char`; the regular expressions used by the
parser are small enough to be translated into explicit deterministic
matching functions (each regex used by the source admits no genuine
backtracking ambiguity, as argued in the comments at each definition).
Floating-point scores are modelled by rationals: the only score
computations performed by the program are divisions of small naturals
followed by a multiplication by 100, and the claims only inspect values at
which the float and rational computations agree exactly.  Division by zero
raising `ZeroDivisionError` is modelled by an `Option` result.
-/

namespace CertQuiz

/-- ASCII whitespace recognised by the Python strip method and by the
whitespace class of the regexes used in the parser (inputs are ASCII). -/
def isPyWs (c : Char) : Bool :=
  c == ' ' || c == '\t' || c == '\n' || c == '\r' || c == '\x0b' || c == '\x0c'

/-- Python string strip: drop whitespace from both ends. -/
def pyStrip (l : List Char) : List Char :=
  ((l.dropWhile isPyWs).reverse.dropWhile isPyWs).reverse

/-- Whether `p` is an initial segment of `l`; models the Python method
startswith. -/
def listStarts : List Char → List Char → Bool
  | [], _ => true
  | _ :: _, [] => false
  | p :: ps, c :: cs => p == c && listStarts ps cs

/-- Length of the match of the split pattern `Q\d+:|Question \d+:` at the
head of `l`, if any (`re.split` separator in `_parse_questions`).  The
alternation is deterministic: both branches require an initial `Q`, and the
greedy `\d+` must stop exactly at the `:` because a digit cannot also be a
colon. -/
def matchMarkerLen (l : List Char) : Option Nat :=
  match l with
  | [] => none
  | c :: rest =>
    if c = 'Q' then
      let ds := rest.takeWhile Char.isDigit
      if ds ≠ [] ∧ (rest.drop ds.length).head? = some ':' then
        some (ds.length + 2)
      else if listStarts "uestion ".data rest then
        let r2 := rest.drop 8
        let ds2 := r2.takeWhile Char.isDigit
        if ds2 ≠ [] ∧ (r2.drop ds2.length).head? = some ':' then
          some (ds2.length + 10)
        else none
      else none
    else none

/-- Left-to-right scan of the split of the text on the marker pattern.
Returns the piece before the first separator together with the later
pieces.  The fuel argument only serves structural recursion: every step
consumes at least one character, so fuel `text.length` never runs out. -/
def splitGo : Nat → List Char → List Char × List (List Char)
  | _, [] => ([], [])
  | 0, c :: rest => (c :: rest, [])
  | fuel + 1, c :: rest =>
    match matchMarkerLen (c :: rest) with
    | some k =>
      let p := splitGo fuel (rest.drop (k - 1))
      ([], p.1 :: p.2)
    | none =>
      let p := splitGo fuel rest
      (c :: p.1, p.2)

/-- Split of the text on the marker pattern, as (first piece, later
pieces). -/
def splitMarkers (text : List Char) : List Char × List (List Char) :=
  splitGo text.length text

/-- Python split at newline characters, as (first line, later lines);
empty pieces kept. -/
def splitNl : List Char → List Char × List (List Char)
  | [] => ([], [])
  | c :: rest =>
    let p := splitNl rest
    if c = '\n' then ([], p.1 :: p.2) else (c :: p.1, p.2)

/-- The `options` dictionary of a question under parsing.  The option regex
only ever captures the letters A, B, C, D, so the dictionary is represented
by one optional slot per letter (dict insertion order is not needed by any
verified property). -/
structure OptMap where
  a : Option (List Char)
  b : Option (List Char)
  c : Option (List Char)
  d : Option (List Char)
deriving DecidableEq, Repr

/-- Number of keys of the options dictionary (`len(options)`). -/
def optCount (o : OptMap) : Nat :=
  (if o.a.isSome then 1 else 0) + (if o.b.isSome then 1 else 0) +
    (if o.c.isSome then 1 else 0) + (if o.d.isSome then 1 else 0)

/-- Dictionary write `options[letter] = text`. -/
def setOpt (o : OptMap) (ℓ : Char) (t : List Char) : OptMap :=
  if ℓ = 'A' then { o with a := some t }
  else if ℓ = 'B' then { o with b := some t }
  else if ℓ = 'C' then { o with c := some t }
  else if ℓ = 'D' then { o with d := some t }
  else o

/-- Dictionary lookup `options[letter]` (restricted to the four letters the
parser can store). -/
def getOpt (o : OptMap) (ℓ : Char) : Option (List Char) :=
  if ℓ = 'A' then o.a
  else if ℓ = 'B' then o.b
  else if ℓ = 'C' then o.c
  else if ℓ = 'D' then o.d
  else none

/-- Consume the optional `[.:]?` separator after the option letter. -/
def consumeSep (l : List Char) : List Char :=
  match l with
  | [] => []
  | d :: r => if d = '.' ∨ d = ':' then r else d :: r

/-- Match of the option regex, anchored letter A-D, then an optional dot
or colon, then whitespace, then the captured text, on a newline-free line
(all lines matched by the parser come from a split at newlines).  The
optional separator is forced:
if the next character is `.` or `:` it must be consumed, since neither is
whitespace.  The greedy `\s+`/`(.+)` pair backtracks only when everything
after the separator is whitespace, in which case `.+` keeps the final
whitespace character. -/
def optionMatch (line : List Char) : Option (Char × List Char) :=
  match line with
  | [] => none
  | c :: rest =>
    if c = 'A' ∨ c = 'B' ∨ c = 'C' ∨ c = 'D' then
      let rest1 := consumeSep rest
      let ws := rest1.takeWhile isPyWs
      let body := rest1.dropWhile isPyWs
      if ws = [] then none
      else if body ≠ [] then some (c, body)
      else if 2 ≤ ws.length then some (c, [ws.getLastD ' '])
      else none
    else none

/-- Match of the answer regex, the literal word Answer, an optional
colon, whitespace, then a captured letter A-D and arbitrary trailing text,
on a newline-free line, returning the captured letter.  Again deterministic: the optional `:` and
the greedy `\s+` admit no real choice because `:` and whitespace are not in
`[A-D]`. -/
def answerMatch (line : List Char) : Option Char :=
  if listStarts "Answer".data line then
    let r1 := line.drop 6
    let r2 :=
      match r1 with
      | [] => r1
      | c :: r => if c = ':' then r else c :: r
    let ws := r2.takeWhile isPyWs
    let body := r2.dropWhile isPyWs
    if ws = [] then none
    else
      match body with
      | c :: _ => if c = 'A' ∨ c = 'B' ∨ c = 'C' ∨ c = 'D' then some c else none
      | [] => none
  else none

/-- Mutable state of the per-segment scanning loop of `_parse_questions`:
the `options` dict, the `answer` letter and the `explanation` text. -/
structure PState where
  opts : OptMap
  answer : Option Char
  explanation : Option (List Char)
deriving DecidableEq, Repr

/-- Loop state at the start of a segment. -/
def baseState : PState := ⟨⟨none, none, none, none⟩, none, none⟩

/-- Python truthiness of the `explanation` variable: not `None` and not the
empty string. -/
def explStarted (e : Option (List Char)) : Bool :=
  match e with
  | some s => !s.isEmpty
  | none => false

/-- One iteration of the `for line in lines[1:]` loop of
`_parse_questions`: strip the line, skip it when empty, record an option
match and an answer match, then either restart the explanation on an
`Explanation:` label or append the line to a started explanation when it is
neither an option line, an answer line, nor a line starting with `Q`. -/
def processLine (st : PState) (rawLine : List Char) : PState :=
  let line := pyStrip rawLine
  if line = [] then st
  else
    let om := optionMatch line
    let am := answerMatch line
    let st1 :=
      match om with
      | some (ℓ, t) => { st with opts := setOpt st.opts ℓ t }
      | none => st
    let st2 :=
      match am with
      | some ℓ => { st1 with answer := some ℓ }
      | none => st1
    if listStarts "Explanation:".data line then
      { st2 with explanation := some (pyStrip (line.drop 12)) }
    else if explStarted st2.explanation && om.isNone && am.isNone
        && !listStarts "Q".data line then
      { st2 with explanation := st2.explanation.map (fun e => e ++ ' ' :: line) }
    else st2

/-- The whole scanning loop over the lines after the stem. -/
def processLines (st : PState) (lines : List (List Char)) : PState :=
  lines.foldl processLine st

/-- A structured question as emitted by `_parse_questions`. -/
structure Question where
  question : List Char
  options : OptMap
  answer : Char
  explanation : List Char
deriving DecidableEq, Repr

/-- Processing of one raw segment: first line is the stem, remaining lines
feed the scanning loop, and a question is emitted only under the guard
`question_text and options and answer and explanation and
len(options) == 4`. -/
def parseSegment (seg : List Char) : Option Question :=
  let p := splitNl seg
  let qtext := pyStrip p.1
  let st := processLines baseState p.2
  match st.answer, st.explanation with
  | some a, some e =>
    if qtext ≠ [] ∧ 0 < optCount st.opts ∧ e ≠ [] ∧ optCount st.opts = 4 then
      some ⟨qtext, st.opts, a, e⟩
    else none
  | _, _ => none

/-- `QuizGenerator._parse_questions`: split on question markers, strip the
pieces, drop the blank ones, and emit the segments that pass the guard. -/
def parse_questions (text : List Char) : List Question :=
  let p := splitMarkers text
  let raw2 := ((p.1 :: p.2).map pyStrip).filter (fun q => !q.isEmpty)
  raw2.filterMap parseSegment

/-- Text of the last option line of the given raw lines carrying the letter
`ℓ`, if any (the rightmost line whose stripped form matches the option
regex with that letter). -/
def lastOptionText (lines : List (List Char)) (ℓ : Char) : Option (List Char) :=
  match lines with
  | [] => none
  | l :: rest =>
    match lastOptionText rest ℓ with
    | some t => some t
    | none =>
      match optionMatch (pyStrip l) with
      | some (c, t) => if c = ℓ then some t else none
      | none => none

/-- Number of distinct letters contributed by the option lines of a
scanned lines of a segment. -/
def distinctOptionLetters (lines : List (List Char)) : Nat :=
  (['A', 'B', 'C', 'D'].filter fun ℓ => (lastOptionText lines ℓ).isSome).length

/-- Letters a character may assume when captured by the option or answer
regex. -/
def isQuizLetter (c : Char) : Prop := c = 'A' ∨ c = 'B' ∨ c = 'C' ∨ c = 'D'

/-- Eligibility of a raw line as explanation continuation text: non-blank,
not an option line, not an answer line, not starting with `Q`, and not an
`Explanation:` label (which would restart the explanation instead). -/
def contOK (l : List Char) : Prop :=
  pyStrip l ≠ [] ∧ optionMatch (pyStrip l) = none ∧
    answerMatch (pyStrip l) = none ∧
    listStarts "Q".data (pyStrip l) = false ∧
    listStarts "Explanation:".data (pyStrip l) = false

instance : DecidablePred contOK := fun l => by
  unfold contOK
  exact inferInstance

/-- A quiz result as put into the results table by
`DynamoDBClient.save_quiz_result` (the save-time UTC timestamp is external
state and is not modelled; `Decimal(str(score))` is the identity on the
modelled rational scores). -/
structure QuizRecord where
  user_id : String
  topic : String
  score : ℚ
  num_questions : ℕ
  difficulty : String
deriving DecidableEq, Repr

/-- Number of questions answered correctly during the session loop of
`run_quiz`: the validated upper-cased input for question `i` is `ans i` and
it is compared with the recorded answer letter of the question. -/
def correctCount (questions : List Question) (ans : ℕ → Char) : ℕ :=
  questions.enum.countP fun p => ans p.1 == p.2.answer

/-- `CertQuizApp.run_quiz` after the questions have been generated: count
correct answers, compute `score = correct / len(questions) * 100`, persist
the record (with the requested `num_questions` parameter, not the number of
generated questions) and return the score.  When the generated list is
empty the division raises `ZeroDivisionError` before anything is persisted,
modelled by `none`. -/
def run_quiz (questions : List Question) (ans : ℕ → Char) (user_id topic : String)
    (num_questions : ℕ) (difficulty : String) : Option (ℚ × QuizRecord) :=
  if questions.length = 0 then none
  else
    let score : ℚ := (correctCount questions ans : ℚ) / (questions.length : ℚ) * 100
    some (score, ⟨user_id, topic, score, num_questions, difficulty⟩)

/-- A stored result as read back by `get_topic_statistics` (only the fields
that the aggregation inspects). -/
structure StoredResult where
  user_id : String
  topic : String
  score : ℚ
  num_questions : ℕ
deriving DecidableEq, Repr

/-- Return value of `DynamoDBClient.get_topic_statistics`. -/
structure TopicStats where
  attempts : ℕ
  average_score : ℚ
  highest_score : ℚ
  lowest_score : ℚ
  total_questions : ℕ
deriving DecidableEq, Repr

/-- Python `max` over the score list (only applied to non-empty lists). -/
def maxList : List ℚ → ℚ
  | [] => 0
  | h :: t => t.foldl max h

/-- Python `min` over the score list (only applied to non-empty lists). -/
def minList : List ℚ → ℚ
  | [] => 0
  | h :: t => t.foldl min h

/-- `DynamoDBClient.get_topic_statistics`: the `TopicIndex` query is
modelled as filtering the items of the table on the (user_id, topic) key
pair;
an empty result set yields the explicit all-zero statistics record,
otherwise the aggregates are computed from the matching records. -/
def get_topic_statistics (table : List StoredResult) (uid topic : String) :
    TopicStats :=
  let results := table.filter fun r => r.user_id == uid && r.topic == topic
  if results = [] then ⟨0, 0, 0, 0, 0⟩
  else
    let scores := results.map (fun r => r.score)
    ⟨results.length, scores.sum / (results.length : ℚ), maxList scores,
      minList scores, (results.map (fun r => r.num_questions)).sum⟩

/-- `CertQuizApp._get_or_create_user_id`.  The identity file is modelled as
`none` (no file), `some none` (file present, JSON object without a
`user_id` key) or `some (some id)` (file present with a stored id);
`freshId` stands for the freshly generated `uuid4` of this call.  When the
file exists the stored id is returned with the fresh id as `dict.get`
default, and nothing is written; when it does not exist the fresh id is
written to the file. -/
def getOrCreateUserId (freshId : String) (file : Option (Option String)) :
    String × Option (Option String) :=
  match file with
  | some cfg => (cfg.getD freshId, some cfg)
  | none => (freshId, some (some freshId))

/-- The end-to-end sample input of the specification. -/
def c2Text : String :=
  "Q1: What is X?\nA. Opt1\nB. Opt2\nC. Opt3\nD. Opt4\nAnswer: B\nExplanation: Because reasons."

/-- The question parsed from `c2Text`. -/
def c2Question : Question :=
  ⟨"What is X?".data,
    ⟨some "Opt1".data, some "Opt2".data, some "Opt3".data, some "Opt4".data⟩,
    'B', "Because reasons.".data⟩

/-- Input whose single segment carries a fifth lettered option line (a
duplicate `A.` after all four letters have been seen). -/
def c3CexText : String :=
  "Q1: Stem?\nA. First a\nB. Optb\nC. Optc\nD. Optd\nA. Second a\nAnswer: A\nExplanation: Why."

/-- Input whose single segment has a duplicate `B.` line as its fifth
lettered option line. -/
def c3DupText : String :=
  "Q1: Stem2?\nA. a1\nB. b1\nC. c1\nD. d1\nB. b2\nAnswer: C\nExplanation: Because."

/-- A raw segment whose option lines use only three distinct letters. -/
def threeOptSeg : String := "Stem\nA. x\nB. y\nC. z\nAnswer: A\nExplanation: e"

/-- Two well-formed question blocks; the quiz was requested with 5
questions but only these 2 were generated. -/
def c4Text : String :=
  "Q1: One?\nA. a\nB. b\nC. c\nD. d\nAnswer: B\nExplanation: one.\nQ2: Two?\nA. e\nB. f\nC. g\nD. h\nAnswer: A\nExplanation: two."

/-- Session answers: correct on the first question, wrong on the second. -/
def c4Answers : ℕ → Char := fun i => if i = 0 then 'B' else 'C'

/-- A fixed question used to build a five-question session. -/
def sampleQ : Question :=
  ⟨"Sample?".data,
    ⟨some "a".data, some "b".data, some "c".data, some "d".data⟩,
    'A', "because".data⟩

/-- Five copies of the fixed question. -/
def qs5 : List Question := List.replicate 5 sampleQ

/-- Session answers giving exactly 3 correct answers on `qs5`. -/
def ans5 : ℕ → Char := fun i => if i < 3 then 'A' else 'B'

/-- Input whose single segment carries two `B.` lines with different
texts. -/
def c5Text : String :=
  "Q1: Dup?\nA. OptA\nB. Early B\nC. OptC\nD. OptD\nB. Late B\nAnswer: B\nExplanation: Fine."

/-- Input with a started explanation followed by a continuation line that
begins with the character `Q` without being a question marker. -/
def c6CexText : String :=
  "Q1: S?\nA. a\nB. b\nC. c\nD. d\nAnswer: A\nExplanation: Start.\nQuality matters.\nMore text."

/-- Parser state with a started explanation, for the C6 witness. -/
def c6State : PState := ⟨⟨none, none, none, none⟩, none, some "Base.".data⟩

/-- Continuation lines for the C6 witness. -/
def c6Lines : List (List Char) := ["next part".data, "and more".data]

/-- Input whose text before the first question marker is itself a complete
question block. -/
def c7CexText : String :=
  "Leading stem?\nA. a\nB. b\nC. c\nD. d\nAnswer: D\nExplanation: good\nQ1: Second?\nA. e\nB. f\nC. g\nD. h\nAnswer: A\nExplanation: also"

/-- Input with a non-blank preamble before the first marker, for the
amended C7. -/
def c7KeptText : String :=
  "Kept stem?\nA. k1\nB. k2\nC. k3\nD. k4\nAnswer: B\nExplanation: kept\nQ1: Marked?\nA. m1\nB. m2\nC. m3\nD. m4\nAnswer: C\nExplanation: marked"

lemma optionMatch_letter {line : List Char} {c : Char} {t : List Char}
    (h : optionMatch line = some (c, t)) : isQuizLetter c := by
  unfold optionMatch at h
  cases line with
  | nil => simp at h
  | cons c0 rest =>
    simp only at h
    split_ifs at h with h1 h2 h3
    all_goals simp_all [isQuizLetter]

lemma answerMatch_letter {line : List Char} {c : Char}
    (h : answerMatch line = some c) : isQuizLetter c := by
  unfold answerMatch at h
  split_ifs at h with h1
  all_goals simp_all [isQuizLetter]
  all_goals
    obtain ⟨-, h2⟩ := h
    split at h2
    · split_ifs at h2
      all_goals simp_all
    · simp at h2

lemma getOpt_setOpt_self {o : OptMap} {ℓ : Char} (t : List Char)
    (h : isQuizLetter ℓ) : getOpt (setOpt o ℓ t) ℓ = some t := by
  rcases h with h | h | h | h <;> subst h <;> simp [getOpt, setOpt]

lemma getOpt_setOpt_other {o : OptMap} {cw ℓ : Char} (t : List Char)
    (h : cw ≠ ℓ) : getOpt (setOpt o cw t) ℓ = getOpt o ℓ := by
  unfold getOpt setOpt
  split_ifs <;> simp_all

lemma processLine_opts (st : PState) (l : List Char) :
    (processLine st l).opts =
      match optionMatch (pyStrip l) with
      | some p => setOpt st.opts p.1 p.2
      | none => st.opts := by
  unfold processLine
  by_cases h0 : pyStrip l = []
  · simp [h0, optionMatch]
  · simp only [if_neg h0]
    cases hom : optionMatch (pyStrip l) with
    | none =>
      cases ham : answerMatch (pyStrip l) <;>
        simp only [hom, ham] <;> split_ifs <;> rfl
    | some p =>
      obtain ⟨cw, t⟩ := p
      cases ham : answerMatch (pyStrip l) <;>
        simp only [hom, ham] <;> split_ifs <;> rfl

lemma processLine_answer (st : PState) (l : List Char) :
    (processLine st l).answer =
      match answerMatch (pyStrip l) with
      | some a => some a
      | none => st.answer := by
  unfold processLine
  by_cases h0 : pyStrip l = []
  · simp [h0, answerMatch, listStarts]
  · simp only [if_neg h0]
    cases hom : optionMatch (pyStrip l) with
    | none =>
      cases ham : answerMatch (pyStrip l) <;>
        simp only [hom, ham] <;> split_ifs <;> rfl
    | some p =>
      obtain ⟨cw, t⟩ := p
      cases ham : answerMatch (pyStrip l) <;>
        simp only [hom, ham] <;> split_ifs <;> rfl

lemma processLines_cons (st : PState) (l : List Char) (rest : List (List Char)) :
    processLines st (l :: rest) = processLines (processLine st l) rest := rfl

lemma getOpt_processLines_of_none {lines : List (List Char)} {ℓ : Char}
    (st : PState) (h : lastOptionText lines ℓ = none) :
    getOpt (processLines st lines).opts ℓ = getOpt st.opts ℓ := by
  induction lines generalizing st with
  | nil => rfl
  | cons l rest ih =>
    unfold lastOptionText at h
    cases hrest : lastOptionText rest ℓ with
    | some t => rw [hrest] at h; simp at h
    | none =>
      rw [hrest] at h
      rw [processLines_cons, ih _ hrest, processLine_opts]
      cases hom : optionMatch (pyStrip l) with
      | none => rfl
      | some p =>
        obtain ⟨cw, t⟩ := p
        rw [hom] at h
        simp only at h
        by_cases hc : cw = ℓ
        · rw [if_pos hc] at h
          exact absurd h (by simp)
        · exact getOpt_setOpt_other t hc

lemma getOpt_processLines_of_last {lines : List (List Char)} {ℓ : Char}
    {t : List Char} (st : PState) (h : lastOptionText lines ℓ = some t) :
    getOpt (processLines st lines).opts ℓ = some t := by
  induction lines generalizing st with
  | nil => simp [lastOptionText] at h
  | cons l rest ih =>
    unfold lastOptionText at h
    cases hrest : lastOptionText rest ℓ with
    | some t' =>
      rw [hrest] at h
      simp only [Option.some.injEq] at h
      subst h
      rw [processLines_cons]
      exact ih _ hrest
    | none =>
      rw [hrest] at h
      cases hom : optionMatch (pyStrip l) with
      | none => rw [hom] at h; simp at h
      | some p =>
        obtain ⟨cw, tw⟩ := p
        rw [hom] at h
        simp only at h
        by_cases hc : cw = ℓ
        · rw [if_pos hc] at h
          simp only [Option.some.injEq] at h
          subst h
          subst hc
          rw [processLines_cons, getOpt_processLines_of_none _ hrest,
            processLine_opts, hom]
          exact getOpt_setOpt_self tw (optionMatch_letter hom)
        · rw [if_neg hc] at h
          exact absurd h (by simp)

lemma processLines_answer_letter {lines : List (List Char)} {st : PState}
    (h : ∀ a, st.answer = some a → isQuizLetter a) :
    ∀ a, (processLines st lines).answer = some a → isQuizLetter a := by
  induction lines generalizing st with
  | nil => exact h
  | cons l rest ih =>
    rw [processLines_cons]
    refine ih (fun a ha => ?_)
    rw [processLine_answer] at ha
    cases ham : answerMatch (pyStrip l) with
    | none => rw [ham] at ha; exact h a ha
    | some b =>
      rw [ham] at ha
      simp only [Option.some.injEq] at ha
      exact ha ▸ answerMatch_letter ham

lemma optCount_eq (o : OptMap) :
    optCount o = (['A', 'B', 'C', 'D'].filter fun ℓ => (getOpt o ℓ).isSome).length := by
  cases o with
  | mk a b c d => cases a <;> cases b <;> cases c <;> cases d <;> rfl

lemma getOpt_baseState (ℓ : Char) : getOpt baseState.opts ℓ = none := by
  unfold getOpt baseState
  split_ifs <;> rfl

lemma optCount_processLines (lines : List (List Char)) :
    optCount (processLines baseState lines).opts = distinctOptionLetters lines := by
  rw [optCount_eq, distinctOptionLetters]
  congr 1
  refine List.filter_congr (fun ℓ _ => ?_)
  cases h : lastOptionText lines ℓ with
  | some t => simp [getOpt_processLines_of_last _ h, h]
  | none => simp [getOpt_processLines_of_none _ h, getOpt_baseState, h]

lemma optCount_four {o : OptMap} (h : optCount o = 4) :
    o.a.isSome ∧ o.b.isSome ∧ o.c.isSome ∧ o.d.isSome := by
  cases o with
  | mk a b c d => cases a <;> cases b <;> cases c <;> cases d <;> simp_all [optCount]

lemma getOpt_isSome_of_four {o : OptMap} (h4 : optCount o = 4) {ℓ : Char}
    (hl : isQuizLetter ℓ) : (getOpt o ℓ).isSome := by
  obtain ⟨ha, hb, hc, hd⟩ := optCount_four h4
  rcases hl with h | h | h | h <;> subst h <;> simpa [getOpt]

lemma parseSegment_some {seg : List Char} {q : Question}
    (h : parseSegment seg = some q) :
    q.question ≠ [] ∧ optCount q.options = 4 ∧ isQuizLetter q.answer ∧
      (getOpt q.options q.answer).isSome ∧ q.explanation ≠ [] := by
  unfold parseSegment at h
  simp only at h
  cases hA : (processLines baseState (splitNl seg).2).answer with
  | none => rw [hA] at h; simp at h
  | some a =>
    cases hE : (processLines baseState (splitNl seg).2).explanation with
    | none => rw [hA, hE] at h; simp at h
    | some e =>
      rw [hA, hE] at h
      simp only at h
      split_ifs at h with hcond
      obtain ⟨h1, h2, h3, h4⟩ := hcond
      obtain rfl : q = ⟨pyStrip (splitNl seg).1,
          (processLines baseState (splitNl seg).2).opts, a, e⟩ :=
        (Option.some.inj h).symm
      refine ⟨h1, h4, ?_, ?_, h3⟩
      · exact @processLines_answer_letter _ baseState (by simp [baseState]) a hA
      · exact getOpt_isSome_of_four h4
          (@processLines_answer_letter _ baseState (by simp [baseState]) a hA)

lemma processLine_cont {st : PState} {e l : List Char}
    (hE : st.explanation = some e) (hne : e ≠ []) (hc : contOK l) :
    processLine st l = { st with explanation := some (e ++ ' ' :: pyStrip l) } := by
  obtain ⟨h1, h2, h3, h4, h5⟩ := hc
  unfold processLine
  simp only [if_neg h1, h2, h3, h5, h4, hE]
  simp [explStarted, hne, hE]

lemma processLines_cont {lines : List (List Char)} {st : PState} {e : List Char}
    (hE : st.explanation = some e) (hne : e ≠ [])
    (hall : ∀ l ∈ lines, contOK l) :
    (processLines st lines).explanation =
      some (lines.foldl (fun acc l => acc ++ ' ' :: pyStrip l) e) := by
  induction lines generalizing st e with
  | nil => simpa [processLines] using hE
  | cons l rest ih =>
    rw [processLines_cons, processLine_cont hE hne (hall l (by simp))]
    exact ih rfl (by simp) (fun l' hl' => hall l' (by simp [hl']))

lemma isPyWs_ne_Q {c : Char} (h : isPyWs c = true) : c ≠ 'Q' := by
  intro hc
  subst hc
  simp [isPyWs] at h

lemma matchMarkerLen_not_Q {c : Char} (l : List Char) (h : c ≠ 'Q') :
    matchMarkerLen (c :: l) = none := by
  simp [matchMarkerLen, h]

lemma splitGo_ws_append {pre rest : List Char} (h : ∀ c ∈ pre, isPyWs c) :
    splitGo (pre.length + rest.length) (pre ++ rest) =
      (pre ++ (splitGo rest.length rest).1, (splitGo rest.length rest).2) := by
  induction pre with
  | nil => simp
  | cons c pre' ih =>
    have hc : isPyWs c := h c (by simp)
    have hstep : (c :: pre').length + rest.length = (pre'.length + rest.length) + 1 := by
      simp [List.length_cons]; omega
    rw [hstep]
    show splitGo ((pre'.length + rest.length) + 1) (c :: (pre' ++ rest)) = _
    rw [splitGo, matchMarkerLen_not_Q _ (isPyWs_ne_Q hc)]
    simp only
    rw [ih (fun c' hc' => h c' (by simp [hc']))]
    simp

lemma dropWhile_ws_append {pre : List Char} (s : List Char)
    (h : ∀ c ∈ pre, isPyWs c) :
    (pre ++ s).dropWhile isPyWs = s.dropWhile isPyWs := by
  induction pre with
  | nil => rfl
  | cons c pre' ih =>
    have hc : isPyWs c := h c (by simp)
    simpa [List.dropWhile, hc] using ih (fun c' hc' => h c' (by simp [hc']))

lemma pyStrip_ws_append {pre : List Char} (s : List Char)
    (h : ∀ c ∈ pre, isPyWs c) : pyStrip (pre ++ s) = pyStrip s := by
  unfold pyStrip
  rw [dropWhile_ws_append s h]

lemma parse_questions_ws_pre {pre rest : List Char} (h : ∀ c ∈ pre, isPyWs c) :
    parse_questions (pre ++ rest) = parse_questions rest := by
  unfold parse_questions splitMarkers
  rw [List.length_append, splitGo_ws_append h]
  simp only [List.map_cons, List.filter_cons]
  rw [pyStrip_ws_append _ h]

/-- Claim C1: every Question emitted by the parser has a non-empty stem, an
options mapping with exactly 4 entries over the keys A-D, a correct-answer
letter among A-D present as an options key, and a non-empty explanation. -/
theorem parse_questions_emits_only_complete (text : List Char) (q : Question)
    (hq : q ∈ parse_questions text) :
    q.question ≠ [] ∧ optCount q.options = 4 ∧
      (q.answer = 'A' ∨ q.answer = 'B' ∨ q.answer = 'C' ∨ q.answer = 'D') ∧
      (getOpt q.options q.answer).isSome ∧ q.explanation ≠ [] := by
  unfold parse_questions at hq
  simp only [List.mem_filterMap] at hq
  obtain ⟨seg, -, hseg⟩ := hq
  exact parseSegment_some hseg

/-- Witness for C1 at the sample input of the specification. -/
theorem parse_questions_emits_only_complete_witness :
    (c2Question ∈ parse_questions c2Text.data) ∧
      (c2Question.question ≠ [] ∧ optCount c2Question.options = 4 ∧
        (c2Question.answer = 'A' ∨ c2Question.answer = 'B' ∨
          c2Question.answer = 'C' ∨ c2Question.answer = 'D') ∧
        (getOpt c2Question.options c2Question.answer).isSome ∧
        c2Question.explanation ≠ []) :=
  ⟨by decide, parse_questions_emits_only_complete c2Text.data c2Question (by decide)⟩

/-- Claim C2: the sample input of the specification parses to exactly one
Question with the stated stem, options, answer letter and explanation. -/
theorem parse_questions_end_to_end_sample :
    parse_questions c2Text.data =
      [⟨"What is X?".data,
        ⟨some "Opt1".data, some "Opt2".data, some "Opt3".data, some "Opt4".data⟩,
        'B', "Because reasons.".data⟩] := by decide

/-- Counterexample to C3 as stated: a segment containing a fifth stray
lettered option line is not dropped; the parser still emits a Question for
it (the duplicate letter simply overwrites). -/
theorem fifth_lettered_line_segment_kept :
    parse_questions c3CexText.data =
      [⟨"Stem?".data,
        ⟨some "Second a".data, some "Optb".data, some "Optc".data, some "Optd".data⟩,
        'A', "Why.".data⟩] ∧
      (parse_questions c3CexText.data).length ≠ 0 :=
  ⟨by decide, by decide⟩

/-- Claim C3 amended: a segment with exactly 3 distinct option letters is
dropped, but a segment with a fifth lettered option line is kept: the
duplicate letter overwrites and the segment still yields a Question. -/
theorem three_letter_segment_dropped_fifth_line_kept :
    (∀ seg : List Char,
        distinctOptionLetters (splitNl seg).2 = 3 → parseSegment seg = none) ∧
      parse_questions c3DupText.data =
        [⟨"Stem2?".data,
          ⟨some "a1".data, some "b2".data, some "c1".data, some "d1".data⟩,
          'C', "Because.".data⟩] := by
  constructor
  · intro seg h
    unfold parseSegment
    simp only
    have h3 : optCount (processLines baseState (splitNl seg).2).opts = 3 := by
      rw [optCount_processLines]
      exact h
    cases hA : (processLines baseState (splitNl seg).2).answer with
    | none => rfl
    | some a =>
      cases hE : (processLines baseState (splitNl seg).2).explanation with
      | none => rfl
      | some e =>
        simp only
        rw [if_neg]
        simp [h3]
  · decide

/-- Witness for the amended C3 at a concrete three-letter segment. -/
theorem three_letter_segment_dropped_fifth_line_kept_witness :
    distinctOptionLetters (splitNl threeOptSeg.data).2 = 3 ∧
      parseSegment threeOptSeg.data = none :=
  ⟨by decide,
    three_letter_segment_dropped_fifth_line_kept.1 threeOptSeg.data (by decide)⟩

/-- Counterexample to C4 as stated: with 2 generated questions, 1 correct
answer and a requested count of 5, the persisted record carries score 50
and `num_questions` 5, but `correct / num_questions * 100` is 20, so the
persisted record does not satisfy the claimed relationship. -/
theorem score_relation_fails_for_requested_count :
    run_quiz (parse_questions c4Text.data) c4Answers "user-x" "topic-x" 5 "medium" =
        some (50, ⟨"user-x", "topic-x", 50, 5, "medium"⟩) ∧
      correctCount (parse_questions c4Text.data) c4Answers = 1 ∧
      ((correctCount (parse_questions c4Text.data) c4Answers : ℚ) / (5 : ℚ) * 100 ≠ 50) := by
  have hc : correctCount (parse_questions c4Text.data) c4Answers = 1 := by decide
  have hl : (parse_questions c4Text.data).length = 2 := by decide
  refine ⟨?_, hc, ?_⟩
  · unfold run_quiz
    rw [hl, hc]
    norm_num
  · rw [hc]
    norm_num

/-- Claim C4 amended: the score returned and persisted equals
`correct / len(questions) * 100` (with the stated values at 3, 0 and 5
correct out of 5), while the persisted `num_questions` field stores the
requested count, which need not equal the number of questions presented;
the claimed relationship holds whenever the two counts coincide. -/
theorem score_computation_and_persistence (qs : List Question) (ans : ℕ → Char)
    (uid topic diff : String) (n : ℕ) (s : ℚ) (rec : QuizRecord)
    (h : run_quiz qs ans uid topic n diff = some (s, rec)) :
    s = (correctCount qs ans : ℚ) / (qs.length : ℚ) * 100 ∧
      rec = ⟨uid, topic, s, n, diff⟩ ∧
      (n = qs.length → s = (correctCount qs ans : ℚ) / (n : ℚ) * 100) ∧
      (qs.length = 5 → correctCount qs ans = 3 → s = 60) ∧
      (qs.length = 5 → correctCount qs ans = 0 → s = 0) ∧
      (qs.length = 5 → correctCount qs ans = 5 → s = 100) := by
  unfold run_quiz at h
  split_ifs at h with h0
  simp only [Option.some.injEq, Prod.mk.injEq] at h
  obtain ⟨hs, hrec⟩ := h
  subst hs
  subst hrec
  refine ⟨rfl, rfl, ?_, ?_, ?_, ?_⟩
  · intro hn
    rw [hn]
  · intro h5 h3
    rw [h5, h3]
    norm_num
  · intro h5 hc0
    rw [h5, hc0]
    norm_num
  · intro h5 hc5
    rw [h5, hc5]
    norm_num

/-- Witness for the amended C4: a 5-question session with 3 correct answers
returns and persists score 60. -/
theorem score_computation_and_persistence_witness :
    run_quiz qs5 ans5 "user-w" "topic-w" 5 "easy" =
        some (60, ⟨"user-w", "topic-w", 60, 5, "easy"⟩) ∧
      (60 : ℚ) = (correctCount qs5 ans5 : ℚ) / (qs5.length : ℚ) * 100 := by
  have hc : correctCount qs5 ans5 = 3 := by decide
  have hl : qs5.length = 5 := by decide
  have h : run_quiz qs5 ans5 "user-w" "topic-w" 5 "easy" =
      some (60, ⟨"user-w", "topic-w", 60, 5, "easy"⟩) := by
    unfold run_quiz
    rw [hl, hc]
    norm_num
  exact ⟨h,
    (score_computation_and_persistence qs5 ans5 "user-w" "topic-w" "easy" 5 60 _ h).1⟩

/-- Claim C5: within a segment, duplicate option letters are resolved
last-write-wins, and on a concrete segment with two `B.` lines the later
text appears in the emitted Question. -/
theorem option_duplicate_letter_last_write_wins :
    (∀ (st : PState) (lines : List (List Char)) (ℓ : Char) (t : List Char),
        lastOptionText lines ℓ = some t →
        getOpt (processLines st lines).opts ℓ = some t) ∧
      (parse_questions c5Text.data).map (fun q => getOpt q.options 'B') =
        [some "Late B".data] :=
  ⟨fun st _ _ _ h => getOpt_processLines_of_last st h, by decide⟩

/-- Witness for C5 on two duplicate `A.` lines. -/
theorem option_duplicate_letter_last_write_wins_witness :
    lastOptionText ["A. one".data, "A. two".data] 'A' = some "two".data ∧
      getOpt (processLines baseState ["A. one".data, "A. two".data]).opts 'A' =
        some "two".data :=
  ⟨by decide,
    option_duplicate_letter_last_write_wins.1 baseState _ 'A' _ (by decide)⟩

/-- Counterexample to C6 as stated: the line `Quality matters.` is not an
option line, not an answer line and not a question marker, yet it is not
appended to the explanation (the code drops every line starting with `Q`),
so the emitted explanation omits it. -/
theorem q_starting_continuation_line_not_appended :
    (parse_questions c6CexText.data).map (fun q => q.explanation) =
        ["Start. More text.".data] ∧
      "Start. More text.".data ≠ "Start. Quality matters. More text.".data :=
  ⟨by decide, by decide⟩

/-- Claim C6 amended: once an explanation has been started and is
non-empty, every subsequent non-blank line that is not an option line, not
an answer line, does not start with `Q` and does not start with
`Explanation:` is appended, space-joined and in order, to the
explanation. -/
theorem explanation_continuation_appending (st : PState) (e : List Char)
    (lines : List (List Char)) (hE : st.explanation = some e) (hne : e ≠ [])
    (hall : ∀ l ∈ lines, contOK l) :
    (processLines st lines).explanation =
      some (lines.foldl (fun acc l => acc ++ ' ' :: pyStrip l) e) :=
  processLines_cont hE hne hall

/-- Witness for the amended C6 on two concrete continuation lines. -/
theorem explanation_continuation_appending_witness :
    ("Base.".data ≠ ([] : List Char) ∧ ∀ l ∈ c6Lines, contOK l) ∧
      (processLines c6State c6Lines).explanation =
        some "Base. next part and more".data := by
  refine ⟨⟨by decide, by decide⟩, ?_⟩
  rw [explanation_continuation_appending c6State "Base.".data c6Lines rfl
    (by decide) (by decide)]
  decide

/-- Counterexample to C7 as stated: the text before the first question
marker is not discarded; the parser emits a Question built from it (two
Questions come out of an input with a single marker). -/
theorem text_before_first_marker_yields_question :
    (parse_questions c7CexText.data).length = 2 ∧
      (parse_questions c7CexText.data).map (fun q => q.question) =
        ["Leading stem?".data, "Second?".data] :=
  ⟨by decide, by decide⟩

/-- Claim C7 amended: the parser splits at every marker match; a
whitespace-only portion before the first match is discarded, but a
non-blank portion before the first marker is processed as a segment and
can itself yield a Question. -/
theorem blank_preamble_discarded_nonblank_kept :
    (∀ pre rest : List Char, (∀ c ∈ pre, isPyWs c) →
        parse_questions (pre ++ rest) = parse_questions rest) ∧
      (parse_questions c7KeptText.data).map (fun q => q.question) =
        ["Kept stem?".data, "Marked?".data] :=
  ⟨fun _ _ h => parse_questions_ws_pre h, by decide⟩

/-- Witness for the amended C7 on a whitespace preamble. -/
theorem blank_preamble_discarded_nonblank_kept_witness :
    (∀ c ∈ ("  \n ".data : List Char), isPyWs c) ∧
      parse_questions ("  \n ".data ++ "Hi there".data) =
        parse_questions "Hi there".data :=
  ⟨by decide, blank_preamble_discarded_nonblank_kept.1 _ _ (by decide)⟩

/-- Claim C8: when no stored record matches the user and topic, the
statistics are the explicit all-zero record (not an error). -/
theorem topic_statistics_no_data_zero (table : List StoredResult)
    (uid topic : String)
    (h : table.filter (fun r => r.user_id == uid && r.topic == topic) = []) :
    get_topic_statistics table uid topic = ⟨0, 0, 0, 0, 0⟩ := by
  unfold get_topic_statistics
  simp [h]

/-- Witness for C8 at the empty table. -/
theorem topic_statistics_no_data_zero_witness :
    (List.filter (fun r => r.user_id == "u" && r.topic == "t")
        ([] : List StoredResult) = []) ∧
      get_topic_statistics [] "u" "t" = ⟨0, 0, 0, 0, 0⟩ :=
  ⟨rfl, topic_statistics_no_data_zero [] "u" "t" rfl⟩

/-- Counterexample to C9 as stated: when the identity file exists but holds
no user id, a call returns a fresh id without writing it, so the file still
contains no id afterwards and a second call returns a different id. -/
theorem existing_file_without_id_not_stable :
    getOrCreateUserId "fresh-1" (some none) = ("fresh-1", some none) ∧
      getOrCreateUserId "fresh-2" (some none) = ("fresh-2", some none) ∧
      ("fresh-1" : String) ≠ "fresh-2" :=
  ⟨rfl, rfl, by decide⟩

/-- Claim C9 amended: when the identity file is absent, one call creates it
with the fresh id and later calls return that stored id unchanged; when the
file already stores an id, calls return it unchanged; but when the file
exists without an id entry, each call returns its own fresh id and never
writes the file. -/
theorem user_id_stability_by_file_state (fresh fresh2 stored : String) :
    getOrCreateUserId fresh none = (fresh, some (some fresh)) ∧
      getOrCreateUserId fresh2 (some (some fresh)) = (fresh, some (some fresh)) ∧
      getOrCreateUserId fresh2 (some (some stored)) = (stored, some (some stored)) ∧
      getOrCreateUserId fresh2 (some none) = (fresh2, some none) :=
  ⟨rfl, rfl, rfl, rfl⟩

/-- Claim C10: with an empty generated question list, the score division
raises `ZeroDivisionError` (modelled `none`): no score is returned and
nothing is persisted. -/
theorem run_quiz_empty_questions_no_score (ans : ℕ → Char)
    (uid topic diff : String) (n : ℕ) :
    run_quiz [] ans uid topic n diff = none := rfl

end CertQuiz
